import Mathlib

/-!
Formal model of the tiled-raster storage engine of the GeoPackage/MBTiles
driver (`ogr/ogrsf_frmts/gpkg/gdalgeopackagerasterband.cpp`), restricted to
the parts needed to settle the claims about the transaction batcher, the
tile-cache flush path (`WriteTile` / `WriteTileInternal`), tile decoding
validation (`ReadTile`), the 16-bit quantization (`ProcessInt16UInt16Tile`),
the shifted-tile overflow store (`WriteShiftedTile`) and the disk-pressure
partial eviction (`FlushRemainingShiftedTiles` with `bPartialFlush = true`).

Pixel samples are modelled as rationals (the source manipulates them as
doubles after widening from Byte/Int16/UInt16; all computations relevant to
the claims are exact affine arithmetic, so `ℚ` is a faithful carrier).
SQLite effects are modelled as explicit state (record lists) plus a trace of
store actions.  Line numbers in comments refer to
`gdalgeopackagerasterband.cpp`.
-/

/-- `CPLErr` restricted to the two values used by the modelled paths. -/
inductive CPLErr where
  | ceNone
  | ceFailure
deriving DecidableEq

export CPLErr (ceNone ceFailure)

/-- The four data types accepted by `SetDataType` (lines 77-83). -/
inductive GDALDataType where
  | gdtByte
  | gdtInt16
  | gdtUInt16
  | gdtFloat32
deriving DecidableEq

export GDALDataType (gdtByte gdtInt16 gdtUInt16 gdtFloat32)

/-- Tile transfer functions (`m_eTF`) appearing in `WriteTileInternal`. -/
inductive TileFormat where
  | tfPngJpeg
  | tfPng
  | tfPng8
  | tfJpeg
  | tfWebp
  | tfPng16Bit
  | tfTiff32BitFloat
deriving DecidableEq

export TileFormat (tfPngJpeg tfPng tfPng8 tfJpeg tfWebp tfPng16Bit tfTiff32BitFloat)

/-- Observable effects of a flush on the persisted stores and on the
transaction machinery. -/
inductive StoreAction where
  | startTransaction
  | commitTransaction
  | upsertTile (row col : Int)
  | deleteTile (row col : Int)
  | deleteAncillary
  | insertAncillary
deriving DecidableEq

/-- Transaction-batcher state: `count` is `m_nTileInsertionCount` (set to
`-1` when the batcher is poisoned), `commits` and `starts` count the
`ICommitTransaction` / `IStartTransaction` calls that succeeded. -/
structure BatchState where
  count : Int
  commits : Nat
  starts : Nat
deriving DecidableEq

/-- Transaction bookkeeping performed by `WriteTileInternal` just before a
tile upsert (lines 2382-2402): a write with no open transaction starts one;
a write with `count = 1000` commits and reopens (poisoning the batcher when
the commit fails); then the counter is incremented.  `commitOk` tells
whether `ICommitTransaction` succeeds when called. -/
def tileInsertionTx (commitOk : Bool) (s : BatchState) :
    CPLErr × BatchState × List StoreAction :=
  if s.count = 0 then
    (ceNone, { s with starts := s.starts + 1, count := s.count + 1 },
     [StoreAction.startTransaction])
  else if s.count = 1000 then
    if commitOk then
      (ceNone,
       { count := 0 + 1, commits := s.commits + 1, starts := s.starts + 1 },
       [StoreAction.commitTransaction, StoreAction.startTransaction])
    else
      (ceFailure, { s with count := -1 }, [])
  else
    (ceNone, { s with count := s.count + 1 }, [])

/-- Transaction part of `FlushTiles` (lines 139-172): fail fast when the
batcher is poisoned (lines 144-145); otherwise unconditionally commit any
open transaction with a positive counter (lines 159-170), poisoning the
batcher when that commit fails. -/
def flushTilesTx (commitOk : Bool) (s : BatchState) : CPLErr × BatchState :=
  if s.count < 0 then
    (ceFailure, s)
  else if 0 < s.count then
    if commitOk then
      (ceNone, { s with count := 0, commits := s.commits + 1 })
    else
      (ceFailure, { s with count := -1 })
  else
    (ceNone, s)

/-- `k` consecutive successful tile upserts, transaction bookkeeping only. -/
def runTileWrites : Nat → BatchState → BatchState
  | 0, s => s
  | k + 1, s => runTileWrites k (tileInsertionTx true s).2.1

/-- `FillBuffer` (lines 383-398): the value every pixel of an empty tile is
set to — `0` when there is no no-data value or it is `0`, else the no-data
value. -/
def fillBufferVal (hasNoData : Bool) (nodata : ℚ) : ℚ :=
  if ¬hasNoData ∨ nodata = 0 then 0 else nodata

/-- One entry of `m_asCachedTilesDesc` (the 4-slot tile cache). -/
structure CachedTileDesc where
  nRow : Int
  nCol : Int
  nIdxWithinTileData : Int
  abBandDirty : List Bool
deriving DecidableEq

/-- `m_asCachedTilesDesc[i].abBandDirty[j]` with the list defaulting. -/
def bandDirty (s : CachedTileDesc) (i : Nat) : Bool :=
  s.abBandDirty.getD i false

/-- Slot 0 after the reset at lines 1722-1728. -/
def clearedSlot : CachedTileDesc :=
  ⟨-1, -1, -1, [false, false, false, false]⟩

/-- Immutable per-store configuration consumed by `WriteTileInternal`. -/
structure WTConfig where
  update : Bool
  nBands : Nat
  eDT : GDALDataType
  eTF : TileFormat
  hasCT : Bool
  hasNoData : Bool
  nodata : ℚ
deriving DecidableEq

/-- Mutable state seen by `WriteTileInternal`: the slot-0 descriptor, the
band contents of `m_pabyCachedTiles` for slot 0, the band contents the
store would deliver for the same tile (used to fill non-dirty bands at
lines 1610-1629), the rowid `GetTileId` would return for the tile, and the
transaction batcher. -/
structure WTState where
  slot : CachedTileDesc
  slotBands : List (List ℚ)
  storeBands : List (List ℚ)
  existingTileId : Int
  tx : BatchState
deriving DecidableEq

/-- Result of a `WriteTileInternal` call. -/
structure WTResult where
  err : CPLErr
  slot : CachedTileDesc
  tx : BatchState
  actions : List StoreAction
deriving DecidableEq

/-- Tile content after the merge step of lines 1610-1629: dirty bands come
from the cache slot, non-dirty bands are re-read from the store. -/
def mergedBands (cfg : WTConfig) (st : WTState) : List (List ℚ) :=
  (List.range cfg.nBands).map fun i =>
    if bandDirty st.slot i then st.slotBands.getD i [] else st.storeBands.getD i []

/-- Number of samples of a band that are not the no-data value — the
`nValidPixels` accumulated by `ProcessInt16UInt16Tile` (lines 1466-1486)
and by the float loops of `WriteTileInternal`. -/
def validCount (hasNoData : Bool) (nodata : ℚ) (band : List ℚ) : Nat :=
  (band.filter fun v => decide (¬(hasNoData ∧ v = nodata))).length

/-- `bAllDirty` of lines 1589-1598. -/
def wtAllDirty (cfg : WTConfig) (st : WTState) : Bool :=
  (List.range cfg.nBands).all fun i => bandDirty st.slot i

/-- `nAlphaBand` of line 1687: band 2 for gray+alpha, band 4 for RGBA. -/
def wtAlphaBand (cfg : WTConfig) : Nat :=
  if cfg.nBands = 2 then 2 else if cfg.nBands = 4 then 4 else 0

/-- The empty-tile detections of lines 1736-1817, all of which run only
when every band is dirty: a Byte tile with an alpha band (no color table)
whose alpha samples are all zero; a Byte tile without alpha or color table
and with no-data absent or zero whose samples are all zero; a Float32 tile
whose samples all equal the no-data value (or zero when none is set). -/
def wtDeleteEmpty (cfg : WTConfig) (st : WTState) : Bool :=
  if wtAllDirty cfg st = true ∧ cfg.eDT = gdtByte ∧ ¬cfg.hasCT ∧
      wtAlphaBand cfg ≠ 0 then
    ((mergedBands cfg st).getD (wtAlphaBand cfg - 1) []).all fun v =>
      decide (v = 0)
  else if wtAllDirty cfg st = true ∧ cfg.eDT = gdtByte ∧ ¬cfg.hasCT ∧
      (¬cfg.hasNoData ∨ cfg.nodata = 0) then
    (mergedBands cfg st).all fun band => band.all fun v => decide (v = 0)
  else if wtAllDirty cfg st = true ∧ cfg.eDT = gdtFloat32 then
    ((mergedBands cfg st).getD 0 []).all fun v =>
      decide (v = (if cfg.hasNoData then cfg.nodata else 0))
  else false

/-- The quantized no-valid-sample condition of lines 2182-2183. -/
def wtQuantizedEmpty (cfg : WTConfig) (st : WTState) : Bool :=
  decide ((cfg.eTF = tfPng16Bit ∨ cfg.eTF = tfTiff32BitFloat) ∧
    validCount cfg.hasNoData cfg.nodata ((mergedBands cfg st).getD 0 []) = 0)

/-- `WriteTileInternal` (lines 1579-2499), modelled up to the encoded blob
(blob bytes are not represented; the actions record which rows are written
or deleted).  Faithful points: the early no-op returns at lines 1581-1584
and 1599-1600; the non-dirty-band merge (lines 1610-1629, `mergedBands`);
the slot reset (lines 1722-1728); the fully-transparent / fully-zero /
fully-no-data deletions (lines 1736-1817, `wtDeleteEmpty`) which run only
when all bands are dirty; the quantized no-valid-sample deletion
(lines 2182-2198) which deletes the primary row and its ancillary row only
when a row exists; the transaction bookkeeping (lines 2382-2402,
`tileInsertionTx`) followed by the upsert (lines 2404-2436) and, for
quantized formats, the ancillary delete+insert (lines 2438-2486). -/
def writeTileInternal (cfg : WTConfig) (commitOk : Bool) (st : WTState) : WTResult :=
  if ¬(cfg.update ∧ 0 ≤ st.slot.nRow ∧ 0 ≤ st.slot.nCol ∧
        st.slot.nIdxWithinTileData = 0) then
    ⟨ceNone, st.slot, st.tx, []⟩
  else
  if ∀ i ∈ List.range cfg.nBands, bandDirty st.slot i = false then
    ⟨ceNone, st.slot, st.tx, []⟩
  else
  if wtDeleteEmpty cfg st then
    ⟨ceNone, clearedSlot, st.tx, [StoreAction.deleteTile st.slot.nRow st.slot.nCol]⟩
  else
  if wtQuantizedEmpty cfg st then
    ⟨ceNone, clearedSlot, st.tx,
     if 0 < st.existingTileId then
       [StoreAction.deleteTile st.slot.nRow st.slot.nCol,
        StoreAction.deleteAncillary]
     else []⟩
  else
    let t := tileInsertionTx commitOk st.tx
    if t.1 = ceFailure then
      ⟨ceFailure, clearedSlot, t.2.1, t.2.2⟩
    else
      ⟨ceNone, clearedSlot, t.2.1,
       t.2.2 ++ [StoreAction.upsertTile st.slot.nRow st.slot.nCol] ++
         (if cfg.eTF = tfPng16Bit ∨ cfg.eTF = tfTiff32BitFloat then
            [StoreAction.deleteAncillary, StoreAction.insertAncillary]
          else [])⟩

/-- The reentrancy/flush-suppression state of `WriteTile`: `m_bInWriteTile`
and the depth of `GDALRasterBlock::EnterDisableDirtyBlockFlush` nesting. -/
structure GuardState where
  inWriteTile : Bool
  disableFlushDepth : Nat
deriving DecidableEq

/-- Result of a `WriteTile` call; `innerGuard` records the guard state under
which `WriteTileInternal` executed (`none` when it was never entered). -/
structure WriteTileRes where
  err : CPLErr
  guard : GuardState
  st : WTState
  actions : List StoreAction
  innerGuard : Option GuardState
deriving DecidableEq

/-- `WriteTile` (lines 1554-1576): fail fast when the batcher is poisoned
(lines 1556-1559); fail fast on a recursive entry while `m_bInWriteTile` is
held (lines 1561-1569); otherwise run `WriteTileInternal` inside the
`EnterDisableDirtyBlockFlush` / `m_bInWriteTile = true` scope, restoring
both afterwards (lines 1570-1574). -/
def writeTileGuard (cfg : WTConfig) (commitOk : Bool) (g : GuardState)
    (st : WTState) : WriteTileRes :=
  if st.tx.count < 0 then
    ⟨ceFailure, g, st, [], none⟩
  else if g.inWriteTile then
    ⟨ceFailure, g, st, [], none⟩
  else
    let gIn : GuardState := ⟨true, g.disableFlushDepth + 1⟩
    let r := writeTileInternal cfg commitOk st
    ⟨r.err, ⟨false, g.disableFlushDepth⟩,
     { st with slot := r.slot, tx := r.tx }, r.actions, some gIn⟩

/-- Outcome of decoding one tile blob. -/
inductive TileReadResult where
  | filledEmpty (buf : List ℚ)
  | decoded
deriving DecidableEq

/-- Blob-decoding entry of `ReadTile` (lines 430-486): `parsed` is what
`GDALDataset::Open` reports for the blob (`none` when the blob cannot be
parsed, else width, height and band count); `rasterReadOk` is whether the
subsequent `RasterIO` succeeds.  On parse failure, on any geometry/band
mismatch with the configured tile shape (lines 455-464), or on read
failure, the destination buffer is filled via `FillEmptyTile` and the call
fails. -/
def readTileBlob (eDT : GDALDataType) (blockX blockY nBands : Nat)
    (hasNoData : Bool) (nodata : ℚ) (parsed : Option (Nat × Nat × Nat))
    (rasterReadOk : Bool) : TileReadResult × CPLErr :=
  let emptyBuf :=
    List.replicate (nBands * blockX * blockY) (fillBufferVal hasNoData nodata)
  match parsed with
  | none => (TileReadResult.filledEmpty emptyBuf, ceFailure)
  | some (w, h, b) =>
    if ¬(w = blockX ∧ h = blockY ∧ (1 ≤ b ∧ b ≤ 4)) ∨
        (eDT ≠ gdtByte ∧ b ≠ 1) then
      (TileReadResult.filledEmpty emptyBuf, ceFailure)
    else if ¬rasterReadOk then
      (TileReadResult.filledEmpty emptyBuf, ceFailure)
    else
      (TileReadResult.decoded, ceNone)

/-- Observable outcome of `ReadTile(nRow, nCol, pabyData)`. -/
structure ReadTileOutcome where
  issuedQuery : Bool
  buffer : List ℚ
  returnedBuffer : Bool
deriving DecidableEq

/-- Coordinate guard of `ReadTile` (lines 847-866): a tile outside the tile
matrix issues no SQL query, fills the destination with the empty value and
returns the buffer (a success, not an error); any in-matrix tile proceeds
to the store lookup, whose outcome is a parameter. -/
def readTileAtCoords (matrixWidth matrixHeight : Int) (hasNoData : Bool)
    (nodata : ℚ) (nPixels : Nat) (nRow nCol : Int)
    (inBoundsOutcome : ReadTileOutcome) : ReadTileOutcome :=
  if nRow < 0 ∨ nCol < 0 ∨ matrixHeight ≤ nRow ∨ matrixWidth ≤ nCol then
    ⟨false, List.replicate nPixels (fillBufferVal hasNoData nodata), true⟩
  else
    inBoundsOutcome

/-- Statistics accumulator of `ProcessInt16UInt16Tile` (lines 1462-1490):
running min/max of valid samples, valid count, and the Welford mean/M2. -/
structure TileStats where
  nMin : ℚ
  nMax : ℚ
  nValidPixels : Nat
  mean : ℚ
  m2 : ℚ
deriving DecidableEq

/-- First loop of `ProcessInt16UInt16Tile` (lines 1466-1486): skip no-data
samples, track min/max (seeded by the first valid sample) and the streaming
mean/M2. -/
def tileStats (hasNoData : Bool) (nodata : ℚ) (pixels : List ℚ) : TileStats :=
  pixels.foldl
    (fun st v =>
      if hasNoData ∧ v = nodata then st
      else
        let nMin := if st.nValidPixels = 0 then v else min st.nMin v
        let nMax := if st.nValidPixels = 0 then v else max st.nMax v
        let nValid := st.nValidPixels + 1
        let delta := v - st.mean
        let mean := st.mean + delta / nValid
        { nMin := nMin, nMax := nMax, nValidPixels := nValid, mean := mean,
          m2 := st.m2 + delta * (v - mean) })
    ⟨0, 0, 0, 0, 0⟩

/-- Per-tile offset/scale computation of `ProcessInt16UInt16Tile`
(lines 1492-1525), transcribed exactly as written in the source — including
`dfTileOffset = -dfGlobalMin` at line 1507.  `isInt16` distinguishes the
`GInt16` instantiation (whose `numeric_limits<T>::min()` is nonzero) from
the `GUInt16` one. -/
def computeTileOffsetScale (isInt16 hasNoData : Bool) (nodata : ℚ)
    (gpkgNull : Nat) (globalOffset globalScale : ℚ) (nMin nMax : ℚ) : ℚ × ℚ :=
  let dfGlobalMin := (nMin - globalOffset) / globalScale
  let dfGlobalMax := (nMax - globalOffset) / globalScale
  let dfRange : ℚ :=
    if hasNoData ∧ gpkgNull = 65535 ∧ 65535 ≤ dfGlobalMax - dfGlobalMin then
      65534
    else 65535
  let dfTileScale : ℚ :=
    if dfRange < dfGlobalMax - dfGlobalMin then (dfGlobalMax - dfGlobalMin) / dfRange
    else 1
  let dfTileOffset : ℚ :=
    if dfGlobalMin < 0 then -dfGlobalMin
    else if dfRange < dfGlobalMax / dfTileScale then
      dfGlobalMax - dfRange * dfTileScale
    else 0
  if hasNoData ∧ ¬isInt16 ∧ globalOffset = 0 ∧ globalScale = 1 then
    (0, 1)
  else if hasNoData ∧ isInt16 ∧ nodata = -32768 ∧ gpkgNull = 65535 ∧
      globalOffset = -32768 ∧ globalScale = 1 then
    (1, 1)
  else
    (dfTileOffset, dfTileScale)

/-- The pre-rounding encoded value `dfVal` of one sample (lines 1527-1537):
a no-data sample maps to the sentinel, a valid sample through the affine
transform that `CPLAssert(dfVal >= 0.0 && dfVal < 65535.5)` constrains. -/
def encodeSample (hasNoData : Bool) (nodata : ℚ) (gpkgNull : Nat)
    (globalOffset globalScale dfTileOffset dfTileScale : ℚ) (v : ℚ) : ℚ :=
  if hasNoData ∧ v = nodata then (gpkgNull : ℚ)
  else ((v - globalOffset) / globalScale - dfTileOffset) / dfTileScale

/-- Whole-tile encoding of `ProcessInt16UInt16Tile`: computes the per-tile
offset/scale from the observed min/max and returns each sample's `dfVal`. -/
def processInt16UInt16TileEncoded (isInt16 hasNoData : Bool) (nodata : ℚ)
    (gpkgNull : Nat) (globalOffset globalScale : ℚ) (pixels : List ℚ) : List ℚ :=
  let st := tileStats hasNoData nodata pixels
  let p := computeTileOffsetScale isInt16 hasNoData nodata gpkgNull
    globalOffset globalScale st.nMin st.nMax
  pixels.map (encodeSample hasNoData nodata gpkgNull globalOffset globalScale p.1 p.2)

/-- One row of the `partial_tiles` overflow table (created at
lines 2999-3010): per-band blobs (modelled as pixel lists), the 4-bits-per-
band quadrant bitmask `partial_flag`, and the write-order stamp `age`. -/
structure PartialRec where
  id : Nat
  zoom : Int
  row : Int
  col : Int
  bands : List (Option (List ℚ))
  flags : Nat
  age : Int
deriving DecidableEq

/-- The overflow table plus the dataset-wide id and `m_nAge` counters. -/
structure OverflowState where
  recs : List PartialRec
  nextId : Nat
  counterAge : Int
deriving DecidableEq

/-- Quadrant bit computation of `WriteShiftedTile` (lines 3032-3043): which
of the four quadrants (TL, TR, BL, BR) the destination rectangle covers. -/
def quadrantFlag (blockX blockY xoff yoff xsz ysz : Nat) : Nat :=
  (if xoff = 0 ∧ yoff = 0 then 1 else 0) |||
  (if (xoff ≠ 0 ∨ xoff + xsz = blockX) ∧ yoff = 0 then 2 else 0) |||
  (if xoff = 0 ∧ (yoff ≠ 0 ∨ yoff + ysz = blockY) then 4 else 0) |||
  (if (xoff ≠ 0 ∨ xoff + xsz = blockX) ∧ (yoff ≠ 0 ∨ yoff + ysz = blockY)
   then 8 else 0)

/-- Row-wise rectangle copy of lines 3100-3112: pixels inside the
destination rectangle are taken from `src` (same linear layout), the rest
keep the value of `dst`. -/
def mergeRect (blockX : Nat) (dst src : List ℚ) (xoff yoff xsz ysz : Nat) :
    List ℚ :=
  (List.range dst.length).map fun i =>
    let x := i % blockX
    let y := i / blockX
    if xoff ≤ x ∧ x < xoff + xsz ∧ yoff ≤ y ∧ y < yoff + ysz then
      src.getD i 0
    else
      dst.getD i 0

/-- The `SELECT id, partial_flag, tile_data_band_N FROM partial_tiles WHERE
zoom_level = ... AND tile_row = ... AND tile_column = ...` lookup of
lines 3056-3070 (dead records never match: their `zoom_level` is
`-1 - zoom`). -/
def shiftedFound (zoom row col : Int) (ov : OverflowState) : Option PartialRec :=
  ov.recs.find? fun r => r.zoom == zoom && r.row == row && r.col == col

/-- `FillEmptyTileSingleBand` (lines 418-424): one band of empty pixels. -/
def emptyBandFill (blockX blockY : Nat) (hasNoData : Bool) (nodata : ℚ) :
    List ℚ :=
  List.replicate (blockX * blockY) (fillBufferVal hasNoData nodata)

/-- Observable outcome of `WriteShiftedTile`: either the quadrant bitmask
became full and the assembled full tile was handed to `WriteTile`
(`completed`, with the overflow record as marked dead, when one existed),
or the updated per-band blob and bitmask were persisted (`persisted`). -/
inductive ShiftedOutcome where
  | completed (dead : Option PartialRec) (assembled : List (List ℚ))
  | persisted (rec : PartialRec)
deriving DecidableEq

/-- `WriteShiftedTile` (lines 2955-3279), after the temporary database has
been opened.  Steps modelled: quadrant bit computation (lines 3032-3045);
lookup of the record for the coordinate (lines 3056-3096), seeding the band
buffer from the stored blob when the band already has quadrant bits and
from `FillEmptyTileSingleBand` otherwise; the rectangle copy
(lines 3100-3112); OR-ing the new bits (line 3133).  When the bitmask is
full (lines 3134-3198): assemble all bands from the stored per-band blobs
plus the just-written band, mark the overflow record dead
(`zoom_level = -1 - zoom, partial_flag = 0, age = -1`, lines 3184-3187) and
invoke `WriteTile`.  Otherwise (lines 3201-3271): reuse a dead record if
one exists (preferring one with the same coordinate), write the updated
blob, bitmask and current `age`, and bump the age counter
(lines 3241-3244). -/
def writeShiftedTile (blockX blockY nBands : Nat) (hasNoData : Bool)
    (nodata : ℚ) (zoom row col : Int) (nBand : Nat)
    (xoff yoff xsz ysz : Nat) (srcBand : List ℚ) (ov : OverflowState) :
    OverflowState × ShiftedOutcome × CPLErr :=
  let lFlags := quadrantFlag blockX blockY xoff yoff xsz ysz <<< (4 * (nBand - 1))
  let nFullFlags := (1 <<< (4 * nBands)) - 1
  let found := shiftedFound zoom row col ov
  let emptyBand := emptyBandFill blockX blockY hasNoData nodata
  let nOldFlags := (found.map PartialRec.flags).getD 0
  let baseBand :=
    match found with
    | some r =>
      if nOldFlags &&& (((1 <<< 4) - 1) <<< (4 * (nBand - 1))) = 0 then emptyBand
      else (r.bands.getD (nBand - 1) none).getD emptyBand
    | none => emptyBand
  let temp := mergeRect blockX baseBand srcBand xoff yoff xsz ysz
  let newFlags := lFlags ||| nOldFlags
  if newFlags = nFullFlags then
    let stored := fun (i : Nat) =>
      match found with
      | some r => (r.bands.getD i none).getD emptyBand
      | none => emptyBand
    let assembled := (List.range nBands).map fun i =>
      if i + 1 = nBand then temp else stored i
    match found with
    | some r =>
      let dead : PartialRec := { r with zoom := -1 - zoom, flags := 0, age := -1 }
      ({ ov with recs := ov.recs.map fun q => if q.id = r.id then dead else q },
       ShiftedOutcome.completed (some dead) assembled, ceNone)
    | none =>
      (ov, ShiftedOutcome.completed none assembled, ceNone)
  else
    let reuse :=
      match found with
      | some r => some r
      | none =>
        match ov.recs.find? (fun (r : PartialRec) =>
            r.flags == 0 && r.zoom == -1 - zoom && r.row == row && r.col == col) with
        | some r => some r
        | none => ov.recs.find? fun (r : PartialRec) => r.flags == 0
    let newRec : PartialRec :=
      { id := (reuse.map PartialRec.id).getD ov.nextId
        zoom := zoom
        row := row
        col := col
        bands := ((reuse.map PartialRec.bands).getD
          [none, none, none, none]).set (nBand - 1) (some temp)
        flags := newFlags
        age := ov.counterAge }
    let recs2 :=
      match reuse with
      | some r => ov.recs.map fun q => if q.id = r.id then newRec else q
      | none => ov.recs ++ [newRec]
    ({ recs := recs2
       nextId := match reuse with | some _ => ov.nextId | none => ov.nextId + 1
       counterAge := ov.counterAge + 1 },
     ShiftedOutcome.persisted newRec, ceNone)

/-- Ascending-`age` ordering used by the `ORDER BY age` clause of the
partial-flush query (line 2557). -/
def recAgeLE (a b : PartialRec) : Prop :=
  a.age ≤ b.age

instance : DecidableRel recAgeLE := fun a b => Int.decLe a.age b.age

instance : IsTotal PartialRec recAgeLE :=
  ⟨fun a b => Int.le_total a.age b.age⟩

instance : IsTrans PartialRec recAgeLE :=
  ⟨fun _ _ _ h1 h2 => le_trans h1 h2⟩

/-- Per-record loop of `FlushRemainingShiftedTiles` with
`bPartialFlush = true` (lines 2576-2839), on the age-ordered list of active
records: a record whose destination tile has a dirty block in the host
block cache is skipped and stays in the overflow table (lines 2587-2634);
otherwise the flushed-tile counter is incremented and, when it reaches half
of the initially active count, the loop stops before flushing that record
(lines 2637-2642); otherwise the record is force-flushed to the primary
store and deleted from the overflow table (lines 2644-2827).  Returns the
flushed records and the records still in the overflow table. -/
def evictGo (hostDirty : PartialRec → Bool) (half : Nat) :
    Nat → List PartialRec → List PartialRec × List PartialRec
  | _, [] => ([], [])
  | cnt, r :: rest =>
    if hostDirty r then
      ((evictGo hostDirty half cnt rest).1,
       r :: (evictGo hostDirty half cnt rest).2)
    else if half ≤ cnt + 1 then
      ([], r :: rest)
    else
      (r :: (evictGo hostDirty half (cnt + 1) rest).1,
       (evictGo hostDirty half (cnt + 1) rest).2)

/-- Disk-pressure partial eviction (`FlushRemainingShiftedTiles` with
`bPartialFlush = true`): count the active records (lines 2527-2545), order
them by ascending `age` (lines 2547-2558) and run the flush loop with the
half-count threshold. -/
def evictPartialTiles (hostDirty : PartialRec → Bool)
    (recs : List PartialRec) : List PartialRec × List PartialRec :=
  let active := recs.filter fun r => r.flags != 0
  evictGo hostDirty (active.length / 2) 0 (List.insertionSort recAgeLE active)

/-! ## Theorems -/

theorem runTileWrites_add (a b : Nat) (s : BatchState) :
    runTileWrites (a + b) s = runTileWrites b (runTileWrites a s) := by
  induction a generalizing s with
  | zero => simp [runTileWrites]
  | succ a ih =>
    rw [Nat.succ_add]
    simpa [runTileWrites] using ih (tileInsertionTx true s).2.1

theorem runTileWrites_noCommit (k : Nat) :
    ∀ (c : Int) (m st : Nat), 1 ≤ c → c + k ≤ 1000 →
      runTileWrites k ⟨c, m, st⟩ = ⟨c + k, m, st⟩ := by
  induction k with
  | zero => intro c m st _ _; simp [runTileWrites]
  | succ k ih =>
    intro c m st h1 h2
    have hc0 : ¬(c = 0) := by omega
    have hc1000 : ¬(c = 1000) := by omega
    have hstep : (tileInsertionTx true ⟨c, m, st⟩).2.1 = ⟨c + 1, m, st⟩ := by
      simp [tileInsertionTx, hc0, hc1000]
    have : runTileWrites (k + 1) ⟨c, m, st⟩ =
        runTileWrites k (tileInsertionTx true ⟨c, m, st⟩).2.1 := rfl
    rw [this, hstep, ih (c + 1) m st (by omega) (by push_cast at h2; omega)]
    congr 1
    push_cast
    omega

/-- Claim C2: 3000 successful tile upserts followed by a forced
`FlushTiles` perform exactly 3 commits; a write seen at counter 0 starts a
transaction; a write seen at counter 1000 commits, reopens a transaction
and resets the counter (then increments it); `FlushTiles` unconditionally
commits an open transaction with a positive counter. -/
theorem claim_transaction_batching :
    (flushTilesTx true (runTileWrites 3000 ⟨0, 0, 0⟩)).2.commits = 3
    ∧ (∀ s : BatchState, s.count = 0 →
        (tileInsertionTx true s).2.1 = ⟨1, s.commits, s.starts + 1⟩ ∧
        (tileInsertionTx true s).2.2 = [StoreAction.startTransaction])
    ∧ (∀ s : BatchState, s.count = 1000 →
        (tileInsertionTx true s).2.1 = ⟨1, s.commits + 1, s.starts + 1⟩ ∧
        (tileInsertionTx true s).2.2 =
          [StoreAction.commitTransaction, StoreAction.startTransaction])
    ∧ (∀ s : BatchState, 0 < s.count →
        flushTilesTx true s = (ceNone, ⟨0, s.commits + 1, s.starts⟩)) := by
  refine ⟨?_, ?_, ?_, ?_⟩
  · have s1 : runTileWrites 1 ⟨0, 0, 0⟩ = ⟨1, 0, 1⟩ := by decide
    have s2 : runTileWrites 999 ⟨1, 0, 1⟩ = ⟨1000, 0, 1⟩ := by
      simpa using runTileWrites_noCommit 999 1 0 1 (by norm_num) (by norm_num)
    have s3 : runTileWrites 1 ⟨1000, 0, 1⟩ = ⟨1, 1, 2⟩ := by decide
    have s4 : runTileWrites 999 ⟨1, 1, 2⟩ = ⟨1000, 1, 2⟩ := by
      simpa using runTileWrites_noCommit 999 1 1 2 (by norm_num) (by norm_num)
    have s5 : runTileWrites 1 ⟨1000, 1, 2⟩ = ⟨1, 2, 3⟩ := by decide
    have s6 : runTileWrites 999 ⟨1, 2, 3⟩ = ⟨1000, 2, 3⟩ := by
      simpa using runTileWrites_noCommit 999 1 2 3 (by norm_num) (by norm_num)
    have hsum : (3000 : Nat) = 1 + 999 + 1 + 999 + 1 + 999 := by norm_num
    have hfinal : runTileWrites 3000 ⟨0, 0, 0⟩ = ⟨1000, 2, 3⟩ := by
      rw [hsum, runTileWrites_add, runTileWrites_add, runTileWrites_add,
        runTileWrites_add, runTileWrites_add, s1, s2, s3, s4, s5, s6]
    rw [hfinal]
    decide
  · intro s h
    obtain ⟨c, m, st⟩ := s
    simp only at h
    subst h
    constructor <;> simp [tileInsertionTx]
  · intro s h
    obtain ⟨c, m, st⟩ := s
    simp only at h
    subst h
    constructor <;> simp [tileInsertionTx]
  · intro s h
    obtain ⟨c, m, st⟩ := s
    simp only at h
    have h0 : ¬(c < 0) := by omega
    simp [flushTilesTx, h0, h]

/-- Witness for `claim_transaction_batching`: its quantified clauses
discharged at concrete batcher states. -/
theorem claim_transaction_batching_witness :
    (tileInsertionTx true ⟨0, 7, 9⟩).2.1 = ⟨1, 7, 10⟩ ∧
    (tileInsertionTx true ⟨1000, 7, 9⟩).2.1 = ⟨1, 8, 10⟩ ∧
    flushTilesTx true ⟨5, 7, 9⟩ = (ceNone, ⟨0, 8, 9⟩) :=
  ⟨(claim_transaction_batching.2.1 ⟨0, 7, 9⟩ rfl).1,
   (claim_transaction_batching.2.2.1 ⟨1000, 7, 9⟩ rfl).1,
   claim_transaction_batching.2.2.2 ⟨5, 7, 9⟩ (by norm_num)⟩

/-- Claim C3: a failed commit during tile write-back or during `FlushTiles`
sets the insertion counter to `-1`; once poisoned, every `WriteTile`
attempt fails without any store action or state change, and every
`FlushTiles` call fails fast without committing. -/
theorem claim_transaction_poisoning :
    (∀ s : BatchState, s.count = 1000 →
      tileInsertionTx false s = (ceFailure, ⟨-1, s.commits, s.starts⟩, []))
    ∧ (∀ s : BatchState, 0 < s.count →
      flushTilesTx false s = (ceFailure, ⟨-1, s.commits, s.starts⟩))
    ∧ (∀ (cfg : WTConfig) (commitOk : Bool) (g : GuardState) (st : WTState),
      st.tx.count < 0 →
      writeTileGuard cfg commitOk g st = ⟨ceFailure, g, st, [], none⟩)
    ∧ (∀ (commitOk : Bool) (s : BatchState), s.count < 0 →
      flushTilesTx commitOk s = (ceFailure, s)) := by
  refine ⟨?_, ?_, ?_, ?_⟩
  · intro s h
    obtain ⟨c, m, st⟩ := s
    simp only at h
    subst h
    simp [tileInsertionTx]
  · intro s h
    obtain ⟨c, m, st⟩ := s
    simp only at h
    have h0 : ¬(c < 0) := by omega
    simp [flushTilesTx, h0, h]
  · intro cfg commitOk g st h
    unfold writeTileGuard
    rw [if_pos h]
  · intro commitOk s h
    unfold flushTilesTx
    rw [if_pos h]

/-- Witness for `claim_transaction_poisoning` at concrete states. -/
theorem claim_transaction_poisoning_witness :
    tileInsertionTx false ⟨1000, 4, 6⟩ = (ceFailure, ⟨-1, 4, 6⟩, []) ∧
    flushTilesTx false ⟨3, 4, 6⟩ = (ceFailure, ⟨-1, 4, 6⟩) ∧
    writeTileGuard ⟨true, 1, gdtByte, tfPng, false, false, 0⟩ true ⟨false, 0⟩
      ⟨⟨0, 0, 0, [true, false, false, false]⟩, [[1]], [[2]], 0, ⟨-1, 4, 6⟩⟩ =
      ⟨ceFailure, ⟨false, 0⟩,
       ⟨⟨0, 0, 0, [true, false, false, false]⟩, [[1]], [[2]], 0, ⟨-1, 4, 6⟩⟩,
       [], none⟩ ∧
    flushTilesTx true ⟨-1, 4, 6⟩ = (ceFailure, ⟨-1, 4, 6⟩) :=
  ⟨claim_transaction_poisoning.1 ⟨1000, 4, 6⟩ rfl,
   claim_transaction_poisoning.2.1 ⟨3, 4, 6⟩ (by norm_num),
   claim_transaction_poisoning.2.2.1 _ true _ _ (by norm_num),
   claim_transaction_poisoning.2.2.2 true ⟨-1, 4, 6⟩ (by norm_num)⟩

/-- Claim C4: flushing a cache slot none of whose bands is dirty is a
no-op — `WriteTileInternal` returns success, performs no store action, no
transaction activity, and leaves the slot and batcher unchanged. -/
theorem claim_clean_slot_flush_noop :
    ∀ (cfg : WTConfig) (commitOk : Bool) (st : WTState),
      (∀ i ∈ List.range cfg.nBands, bandDirty st.slot i = false) →
      writeTileInternal cfg commitOk st = ⟨ceNone, st.slot, st.tx, []⟩ := by
  intro cfg commitOk st h
  unfold writeTileInternal
  by_cases hg : ¬(cfg.update = true ∧ 0 ≤ st.slot.nRow ∧ 0 ≤ st.slot.nCol ∧
      st.slot.nIdxWithinTileData = 0)
  · rw [if_pos hg]
  · rw [if_neg hg, if_pos h]

/-- Witness for `claim_clean_slot_flush_noop` at a concrete clean slot. -/
theorem claim_clean_slot_flush_noop_witness :
    writeTileInternal ⟨true, 2, gdtByte, tfPng, false, false, 0⟩ true
      ⟨⟨3, 4, 0, [false, false, false, false]⟩, [[1], [2]], [[3], [4]], 1,
       ⟨5, 6, 7⟩⟩ =
      ⟨ceNone, ⟨3, 4, 0, [false, false, false, false]⟩, ⟨5, 6, 7⟩, []⟩ :=
  claim_clean_slot_flush_noop _ true _ (by decide)

/-- Claim C9: a reentrant call into `WriteTile` while the per-write guard
`m_bInWriteTile` is held fails fast with no store action, no state change
and no entry into `WriteTileInternal`; a normal entry runs
`WriteTileInternal` with the guard set and dirty-block flushing disabled
one level deeper, and restores both on exit. -/
theorem claim_write_reentrancy_guard :
    (∀ (cfg : WTConfig) (commitOk : Bool) (g : GuardState) (st : WTState),
      g.inWriteTile = true →
      writeTileGuard cfg commitOk g st = ⟨ceFailure, g, st, [], none⟩)
    ∧ (∀ (cfg : WTConfig) (commitOk : Bool) (g : GuardState) (st : WTState),
      g.inWriteTile = false → ¬(st.tx.count < 0) →
      (writeTileGuard cfg commitOk g st).innerGuard =
        some ⟨true, g.disableFlushDepth + 1⟩ ∧
      (writeTileGuard cfg commitOk g st).guard = ⟨false, g.disableFlushDepth⟩) := by
  constructor
  · intro cfg commitOk g st h
    unfold writeTileGuard
    by_cases hp : st.tx.count < 0
    · rw [if_pos hp]
    · rw [if_neg hp, if_pos h]
  · intro cfg commitOk g st h hp
    unfold writeTileGuard
    rw [if_neg hp, if_neg (by simp [h])]
    exact ⟨rfl, rfl⟩

/-- Witness for `claim_write_reentrancy_guard` at a concrete state. -/
theorem claim_write_reentrancy_guard_witness :
    writeTileGuard ⟨true, 1, gdtByte, tfPng, false, false, 0⟩ true ⟨true, 2⟩
      ⟨⟨0, 0, 0, [true, false, false, false]⟩, [[1]], [[2]], 0, ⟨0, 0, 0⟩⟩ =
      ⟨ceFailure, ⟨true, 2⟩,
       ⟨⟨0, 0, 0, [true, false, false, false]⟩, [[1]], [[2]], 0, ⟨0, 0, 0⟩⟩,
       [], none⟩ ∧
    (writeTileGuard ⟨true, 1, gdtByte, tfPng, false, false, 0⟩ true ⟨false, 2⟩
      ⟨⟨0, 0, 0, [true, false, false, false]⟩, [[1]], [[2]], 0,
       ⟨0, 0, 0⟩⟩).innerGuard = some ⟨true, 3⟩ :=
  ⟨claim_write_reentrancy_guard.1 _ true _ _ rfl,
   (claim_write_reentrancy_guard.2 _ true _ _ rfl (by norm_num)).1⟩

/-- Claim C10: a tile coordinate outside the tile matrix issues no store
query; the destination buffer is filled with the configured no-data value
(zero when no non-zero no-data value is set) and returned as a successful
result. -/
theorem claim_read_out_of_matrix :
    ∀ (matrixWidth matrixHeight : Int) (hasNoData : Bool) (nodata : ℚ)
      (nPixels : Nat) (nRow nCol : Int) (inBoundsOutcome : ReadTileOutcome),
      (nRow < 0 ∨ nCol < 0 ∨ matrixHeight ≤ nRow ∨ matrixWidth ≤ nCol) →
      readTileAtCoords matrixWidth matrixHeight hasNoData nodata nPixels
          nRow nCol inBoundsOutcome =
        ⟨false, List.replicate nPixels (fillBufferVal hasNoData nodata), true⟩ := by
  intro mW mH hasNoData nodata nPixels nRow nCol inB h
  unfold readTileAtCoords
  rw [if_pos h]

/-- Witness for `claim_read_out_of_matrix`: a negative row with a non-zero
no-data value of 7 fills the buffer with 7 and succeeds. -/
theorem claim_read_out_of_matrix_witness :
    readTileAtCoords 10 10 true 7 3 (-1) 2 ⟨true, [], false⟩ =
      ⟨false, [7, 7, 7], true⟩ := by
  rw [claim_read_out_of_matrix 10 10 true 7 3 (-1) 2 ⟨true, [], false⟩
    (Or.inl (by norm_num))]
  decide

/-- Claim C7: decoding a tile blob validates the parsed width, height and
band count against the configured tile geometry (width and height must
match the block size, bands between 1 and 4, exactly 1 band for non-Byte
types); on a parse failure or any mismatch the output buffer is filled
with the empty value and the read fails; a successful read implies the
geometry matched — blobs are never silently reinterpreted. -/
theorem claim_decode_validation :
    ∀ (eDT : GDALDataType) (blockX blockY nBands : Nat) (hasNoData : Bool)
      (nodata : ℚ) (parsed : Option (Nat × Nat × Nat)) (rasterReadOk : Bool),
      ((parsed = none ∨ ∃ w h b, parsed = some (w, h, b) ∧
          (¬(w = blockX ∧ h = blockY ∧ (1 ≤ b ∧ b ≤ 4)) ∨
            (eDT ≠ gdtByte ∧ b ≠ 1))) →
        readTileBlob eDT blockX blockY nBands hasNoData nodata parsed
            rasterReadOk =
          (TileReadResult.filledEmpty (List.replicate (nBands * blockX * blockY)
            (fillBufferVal hasNoData nodata)), ceFailure))
      ∧ ((readTileBlob eDT blockX blockY nBands hasNoData nodata parsed
            rasterReadOk).2 = ceNone →
        ∃ w h b, parsed = some (w, h, b) ∧ w = blockX ∧ h = blockY ∧
          1 ≤ b ∧ b ≤ 4 ∧ (eDT ≠ gdtByte → b = 1)) := by
  intro eDT blockX blockY nBands hasNoData nodata parsed rasterReadOk
  constructor
  · intro hbad
    match parsed, hbad with
    | none, _ => rfl
    | some (w, h, b), Or.inr ⟨w', h', b', heq, hmis⟩ =>
      obtain ⟨rfl, rfl, rfl⟩ : w' = w ∧ h' = h ∧ b' = b := by
        injection heq with heq'
        refine ⟨?_, ?_, ?_⟩ <;> simp_all
      simp only [readTileBlob]
      rw [if_pos hmis]
  · intro hok
    match hp : parsed with
    | none =>
      simp [readTileBlob] at hok
    | some (w, h, b) =>
      by_cases hmis : ¬(w = blockX ∧ h = blockY ∧ (1 ≤ b ∧ b ≤ 4)) ∨
          (eDT ≠ gdtByte ∧ b ≠ 1)
      · simp only [readTileBlob] at hok
        rw [if_pos hmis] at hok
        simp at hok
      · push_neg at hmis
        obtain ⟨⟨hw, hh, hb1, hb4⟩, hband⟩ := hmis
        exact ⟨w, h, b, rfl, hw, hh, hb1, hb4, hband⟩

/-- Witness for `claim_decode_validation`: a 2-band blob decoded for an
Int16 store is rejected and the buffer replaced by the empty fill. -/
theorem claim_decode_validation_witness :
    readTileBlob gdtInt16 4 4 1 false 0 (some (4, 4, 2)) true =
      (TileReadResult.filledEmpty (List.replicate 16 0), ceFailure) ∧
    (readTileBlob gdtByte 4 4 1 false 0 (some (4, 4, 3)) true).2 = ceNone := by
  constructor
  · have := (claim_decode_validation gdtInt16 4 4 1 false 0 (some (4, 4, 2))
      true).1 (Or.inr ⟨4, 4, 2, rfl, Or.inr ⟨by decide, by decide⟩⟩)
    simpa using this
  · decide

/-- Claim C8: evaluation of `ProcessInt16UInt16Tile` at the Int16 tile
`[-100, 100]` with no no-data value and identity global offset/scale.  The
source computes `dfTileOffset = -dfGlobalMin` (line 1507) where the decode
path (lines 493-513, `usVal * dfTileScale + dfTileOffset`) and the
assertion `CPLAssert(dfVal >= 0.0 && dfVal < 65535.5)` (line 1536) require
`dfTileOffset = dfGlobalMin`: the valid sample `-100` is encoded to `-200`,
strictly below the claimed `[0, 65535]` interval and in violation of the
code's own assertion. -/
theorem claim_quantization_offset_sign :
    processInt16UInt16TileEncoded true false 0 65535 0 1 [-100, 100] =
      [-200, 0]
    ∧ computeTileOffsetScale true false 0 65535 0 1 (-100) 100 = (100, 1)
    ∧ ¬(∀ v ∈ processInt16UInt16TileEncoded true false 0 65535 0 1 [-100, 100],
        0 ≤ v ∧ v ≤ 65535) := by
  have hstats : tileStats false 0 [-100, 100] = ⟨-100, 100, 2, 0, 20000⟩ := by
    norm_num [tileStats, List.foldl]
  have hos : computeTileOffsetScale true false 0 65535 0 1 (-100) 100 =
      (100, 1) := by
    norm_num [computeTileOffsetScale]
  have henc : processInt16UInt16TileEncoded true false 0 65535 0 1 [-100, 100] =
      [-200, 0] := by
    unfold processInt16UInt16TileEncoded
    rw [hstats]
    norm_num [hos, encodeSample]
  refine ⟨henc, hos, ?_⟩
  intro hall
  have h := hall (-200) (by rw [henc]; exact List.mem_cons_self _ _)
  have hneg : ¬((0 : ℚ) ≤ -200) := by norm_num
  exact hneg h.1

theorem wtAllDirty_bandDirty {cfg : WTConfig} {st : WTState}
    (h : wtAllDirty cfg st = true) :
    ∀ i ∈ List.range cfg.nBands, bandDirty st.slot i = true := fun i hi =>
  List.all_eq_true.mp h i hi

theorem not_allNonDirty_of_allDirty {cfg : WTConfig} {st : WTState}
    (hn : 0 < cfg.nBands) (h : wtAllDirty cfg st = true) :
    ¬(∀ i ∈ List.range cfg.nBands, bandDirty st.slot i = false) := by
  intro hall
  have h0 := hall 0 (List.mem_range.mpr hn)
  have h1 := wtAllDirty_bandDirty h 0 (List.mem_range.mpr hn)
  rw [h0] at h1
  exact Bool.false_ne_true h1

theorem writeTileInternal_deleteEmpty {cfg : WTConfig} {st : WTState}
    {commitOk : Bool}
    (hupd : cfg.update = true) (hr : 0 ≤ st.slot.nRow) (hc : 0 ≤ st.slot.nCol)
    (hidx : st.slot.nIdxWithinTileData = 0) (hn : 0 < cfg.nBands)
    (had : wtAllDirty cfg st = true) (hde : wtDeleteEmpty cfg st = true) :
    writeTileInternal cfg commitOk st =
      ⟨ceNone, clearedSlot, st.tx,
       [StoreAction.deleteTile st.slot.nRow st.slot.nCol]⟩ := by
  unfold writeTileInternal
  rw [if_neg (not_not_intro ⟨hupd, hr, hc, hidx⟩),
    if_neg (not_allNonDirty_of_allDirty hn had), if_pos hde]

theorem wtDeleteEmpty_alpha {cfg : WTConfig} {st : WTState}
    (had : wtAllDirty cfg st = true) (hb : cfg.eDT = gdtByte)
    (hct : cfg.hasCT = false) (hab : wtAlphaBand cfg ≠ 0)
    (hz : ∀ v ∈ (mergedBands cfg st).getD (wtAlphaBand cfg - 1) [], v = 0) :
    wtDeleteEmpty cfg st = true := by
  unfold wtDeleteEmpty
  rw [if_pos ⟨had, hb, by simp [hct], hab⟩]
  exact List.all_eq_true.mpr fun v hv => decide_eq_true (hz v hv)

theorem wtDeleteEmpty_allZero {cfg : WTConfig} {st : WTState}
    (had : wtAllDirty cfg st = true) (hb : cfg.eDT = gdtByte)
    (hct : cfg.hasCT = false) (hab : wtAlphaBand cfg = 0)
    (hnd : ¬cfg.hasNoData = true ∨ cfg.nodata = 0)
    (hz : ∀ band ∈ mergedBands cfg st, ∀ v ∈ band, v = 0) :
    wtDeleteEmpty cfg st = true := by
  unfold wtDeleteEmpty
  rw [if_neg (fun hcond => hcond.2.2.2 hab), if_pos ⟨had, hb, by simp [hct], hnd⟩]
  exact List.all_eq_true.mpr fun band hband =>
    List.all_eq_true.mpr fun v hv => decide_eq_true (hz band hband v hv)

theorem wtDeleteEmpty_float {cfg : WTConfig} {st : WTState}
    (had : wtAllDirty cfg st = true) (hf : cfg.eDT = gdtFloat32)
    (hz : ∀ v ∈ (mergedBands cfg st).getD 0 [],
      v = (if cfg.hasNoData then cfg.nodata else 0)) :
    wtDeleteEmpty cfg st = true := by
  have hnb : cfg.eDT ≠ gdtByte := by rw [hf]; intro hx; cases hx
  unfold wtDeleteEmpty
  rw [if_neg (fun hcond => hnb hcond.2.1), if_neg (fun hcond => hnb hcond.2.1),
    if_pos ⟨had, hf⟩]
  exact List.all_eq_true.mpr fun v hv => decide_eq_true (hz v hv)

theorem writeTileInternal_quantizedEmpty {cfg : WTConfig} {st : WTState}
    {commitOk : Bool}
    (hupd : cfg.update = true) (hr : 0 ≤ st.slot.nRow) (hc : 0 ≤ st.slot.nCol)
    (hidx : st.slot.nIdxWithinTileData = 0)
    (hdirty : ¬(∀ i ∈ List.range cfg.nBands, bandDirty st.slot i = false))
    (hint : cfg.eDT = gdtInt16 ∨ cfg.eDT = gdtUInt16)
    (htf : cfg.eTF = tfPng16Bit)
    (hvc : validCount cfg.hasNoData cfg.nodata ((mergedBands cfg st).getD 0 []) = 0) :
    writeTileInternal cfg commitOk st =
      ⟨ceNone, clearedSlot, st.tx,
       if 0 < st.existingTileId then
         [StoreAction.deleteTile st.slot.nRow st.slot.nCol,
          StoreAction.deleteAncillary]
       else []⟩ := by
  have hnb : cfg.eDT ≠ gdtByte := by
    rcases hint with h | h <;> rw [h] <;> intro hx <;> cases hx
  have hnf : cfg.eDT ≠ gdtFloat32 := by
    rcases hint with h | h <;> rw [h] <;> intro hx <;> cases hx
  have hde : wtDeleteEmpty cfg st = false := by
    unfold wtDeleteEmpty
    rw [if_neg (fun hcond => hnb hcond.2.1), if_neg (fun hcond => hnb hcond.2.1),
      if_neg (fun hcond => hnf hcond.2)]
  have hqe : wtQuantizedEmpty cfg st = true :=
    decide_eq_true ⟨Or.inl htf, hvc⟩
  unfold writeTileInternal
  rw [if_neg (not_not_intro ⟨hupd, hr, hc, hidx⟩), if_neg hdirty,
    if_neg (by rw [hde]; exact Bool.false_ne_true), if_pos hqe]

/-- Claim C5 counterexample: a 2-band Byte tile whose merged alpha band is
entirely zero (fully transparent) but whose alpha band is not dirty in the
cache slot.  The transparency detection (line 1739) requires `bAllDirty`,
so the tile is encoded and upserted — a primary-table row results and no
delete is issued, contradicting the claim as stated. -/
theorem claim_sparse_tile_deletion_counterexample :
    (mergedBands ⟨true, 2, gdtByte, tfPng, false, false, 0⟩
      ⟨⟨0, 0, 0, [true, false, false, false]⟩, [[5, 5], [7, 7]],
       [[1, 1], [0, 0]], 1, ⟨0, 0, 0⟩⟩).getD 1 [] = [0, 0] ∧
    writeTileInternal ⟨true, 2, gdtByte, tfPng, false, false, 0⟩ true
      ⟨⟨0, 0, 0, [true, false, false, false]⟩, [[5, 5], [7, 7]],
       [[1, 1], [0, 0]], 1, ⟨0, 0, 0⟩⟩ =
      ⟨ceNone, clearedSlot, ⟨1, 0, 1⟩,
       [StoreAction.startTransaction, StoreAction.upsertTile 0 0]⟩ ∧
    StoreAction.deleteTile 0 0 ∉
      (writeTileInternal ⟨true, 2, gdtByte, tfPng, false, false, 0⟩ true
        ⟨⟨0, 0, 0, [true, false, false, false]⟩, [[5, 5], [7, 7]],
         [[1, 1], [0, 0]], 1, ⟨0, 0, 0⟩⟩).actions := by
  refine ⟨by decide, by decide, by decide⟩

/-- Claim C5 (amended): when every band of the cache slot is dirty, a Byte
tile (without color table) whose alpha band is entirely zero, or — without
an alpha band, with no-data absent or zero — entirely zero, or a Float32
tile entirely equal to its no-data value, is not encoded: the only store
action is the deletion of the primary row, and the flush succeeds.  An
int16/uint16 quantized tile with no valid sample is likewise not encoded:
its primary row and ancillary row are deleted when a primary row exists
(no action otherwise), and the flush succeeds. -/
theorem claim_sparse_tile_deletion :
    (∀ (cfg : WTConfig) (commitOk : Bool) (st : WTState),
      cfg.update = true → 0 ≤ st.slot.nRow → 0 ≤ st.slot.nCol →
      st.slot.nIdxWithinTileData = 0 → 0 < cfg.nBands →
      wtAllDirty cfg st = true → cfg.eDT = gdtByte → cfg.hasCT = false →
      wtAlphaBand cfg ≠ 0 →
      (∀ v ∈ (mergedBands cfg st).getD (wtAlphaBand cfg - 1) [], v = 0) →
      writeTileInternal cfg commitOk st =
        ⟨ceNone, clearedSlot, st.tx,
         [StoreAction.deleteTile st.slot.nRow st.slot.nCol]⟩)
    ∧ (∀ (cfg : WTConfig) (commitOk : Bool) (st : WTState),
      cfg.update = true → 0 ≤ st.slot.nRow → 0 ≤ st.slot.nCol →
      st.slot.nIdxWithinTileData = 0 → 0 < cfg.nBands →
      wtAllDirty cfg st = true → cfg.eDT = gdtByte → cfg.hasCT = false →
      wtAlphaBand cfg = 0 → (¬cfg.hasNoData = true ∨ cfg.nodata = 0) →
      (∀ band ∈ mergedBands cfg st, ∀ v ∈ band, v = 0) →
      writeTileInternal cfg commitOk st =
        ⟨ceNone, clearedSlot, st.tx,
         [StoreAction.deleteTile st.slot.nRow st.slot.nCol]⟩)
    ∧ (∀ (cfg : WTConfig) (commitOk : Bool) (st : WTState),
      cfg.update = true → 0 ≤ st.slot.nRow → 0 ≤ st.slot.nCol →
      st.slot.nIdxWithinTileData = 0 → 0 < cfg.nBands →
      wtAllDirty cfg st = true → cfg.eDT = gdtFloat32 →
      (∀ v ∈ (mergedBands cfg st).getD 0 [],
        v = (if cfg.hasNoData then cfg.nodata else 0)) →
      writeTileInternal cfg commitOk st =
        ⟨ceNone, clearedSlot, st.tx,
         [StoreAction.deleteTile st.slot.nRow st.slot.nCol]⟩)
    ∧ (∀ (cfg : WTConfig) (commitOk : Bool) (st : WTState),
      cfg.update = true → 0 ≤ st.slot.nRow → 0 ≤ st.slot.nCol →
      st.slot.nIdxWithinTileData = 0 →
      ¬(∀ i ∈ List.range cfg.nBands, bandDirty st.slot i = false) →
      (cfg.eDT = gdtInt16 ∨ cfg.eDT = gdtUInt16) → cfg.eTF = tfPng16Bit →
      validCount cfg.hasNoData cfg.nodata
        ((mergedBands cfg st).getD 0 []) = 0 →
      writeTileInternal cfg commitOk st =
        ⟨ceNone, clearedSlot, st.tx,
         if 0 < st.existingTileId then
           [StoreAction.deleteTile st.slot.nRow st.slot.nCol,
            StoreAction.deleteAncillary]
         else []⟩) := by
  refine ⟨?_, ?_, ?_, ?_⟩
  · intro cfg commitOk st hupd hr hc hidx hn had hb hct hab hz
    exact writeTileInternal_deleteEmpty hupd hr hc hidx hn had
      (wtDeleteEmpty_alpha had hb hct hab hz)
  · intro cfg commitOk st hupd hr hc hidx hn had hb hct hab hnd hz
    exact writeTileInternal_deleteEmpty hupd hr hc hidx hn had
      (wtDeleteEmpty_allZero had hb hct hab hnd hz)
  · intro cfg commitOk st hupd hr hc hidx hn had hf hz
    exact writeTileInternal_deleteEmpty hupd hr hc hidx hn had
      (wtDeleteEmpty_float had hf hz)
  · intro cfg commitOk st hupd hr hc hidx hdirty hint htf hvc
    exact writeTileInternal_quantizedEmpty hupd hr hc hidx hdirty hint htf hvc

/-- Witness for `claim_sparse_tile_deletion`: a fully-transparent all-dirty
2-band Byte tile is deleted rather than encoded, and an all-no-data
all-dirty int16 quantized tile with an existing row gets its primary and
ancillary rows deleted. -/
theorem claim_sparse_tile_deletion_witness :
    writeTileInternal ⟨true, 2, gdtByte, tfPng, false, false, 0⟩ true
      ⟨⟨0, 0, 0, [true, true, false, false]⟩, [[5, 5], [0, 0]],
       [[1, 1], [9, 9]], 1, ⟨0, 0, 0⟩⟩ =
      ⟨ceNone, clearedSlot, ⟨0, 0, 0⟩, [StoreAction.deleteTile 0 0]⟩ ∧
    writeTileInternal ⟨true, 1, gdtInt16, tfPng16Bit, false, true, 7⟩ true
      ⟨⟨2, 3, 0, [true, false, false, false]⟩, [[7, 7]], [[1, 1]], 5,
       ⟨0, 0, 0⟩⟩ =
      ⟨ceNone, clearedSlot, ⟨0, 0, 0⟩,
       [StoreAction.deleteTile 2 3, StoreAction.deleteAncillary]⟩ := by
  constructor
  · have := claim_sparse_tile_deletion.1
      ⟨true, 2, gdtByte, tfPng, false, false, 0⟩ true
      ⟨⟨0, 0, 0, [true, true, false, false]⟩, [[5, 5], [0, 0]],
       [[1, 1], [9, 9]], 1, ⟨0, 0, 0⟩⟩
      rfl (by norm_num) (by norm_num) rfl (by norm_num) (by decide) rfl rfl
      (by decide) (by decide)
    simpa using this
  · have := claim_sparse_tile_deletion.2.2.2
      ⟨true, 1, gdtInt16, tfPng16Bit, false, true, 7⟩ true
      ⟨⟨2, 3, 0, [true, false, false, false]⟩, [[7, 7]], [[1, 1]], 5,
       ⟨0, 0, 0⟩⟩
      rfl (by norm_num) (by norm_num) rfl (by decide) (Or.inl rfl) rfl
      (by decide)
    simpa using this

/-- Claim C1 counterexample: completing the last quadrant of a
zoom-level-4 tile marks the overflow record dead with
`zoom_level = -1 - 4 = -5` (lines 3184-3186), not the negation `-4` stated
by the claim. -/
theorem claim_shifted_quadrant_write_counterexample :
    ((writeShiftedTile 2 2 1 false 0 4 0 0 1 1 1 1 1 [0, 0, 0, 9]
        ⟨[⟨1, 4, 0, 0, [some [1, 2, 3, 0], none, none, none], 7, 0⟩], 2,
         5⟩).1.recs.map PartialRec.zoom) = [-5] ∧
    ((writeShiftedTile 2 2 1 false 0 4 0 0 1 1 1 1 1 [0, 0, 0, 9]
        ⟨[⟨1, 4, 0, 0, [some [1, 2, 3, 0], none, none, none], 7, 0⟩], 2,
         5⟩).1.recs.map PartialRec.flags) = [0] ∧
    ¬((-5 : Int) = -(4 : Int)) := by
  refine ⟨by decide, by decide, by decide⟩

/-- Claim C1 (amended): for a quadrant write to a shifted tile whose
overflow record exists, if OR-ing the written quadrant's bits for the band
into the record's bitmask makes it equal `(1 <<< 4·bands) - 1`, the full
tile — the stored per-band blobs with the just-written band replaced by
the merged buffer — is handed to the flush path (encode + primary upsert)
and the record is marked dead by setting its `zoom_level` to
`-1 - zoomLevel` (not the arithmetic negation), its bitmask to zero and
its `age` to `-1`; otherwise the updated per-band blob and OR-ed bitmask
are persisted with the current age stamp and the age counter is bumped. -/
theorem claim_shifted_quadrant_write :
    ∀ (blockX blockY nBands : Nat) (hasNoData : Bool) (nodata : ℚ)
      (zoom row col : Int) (nBand : Nat) (xoff yoff xsz ysz : Nat)
      (srcBand : List ℚ) (ov : OverflowState) (r : PartialRec),
      shiftedFound zoom row col ov = some r →
      ((quadrantFlag blockX blockY xoff yoff xsz ysz <<< (4 * (nBand - 1)))
          ||| r.flags = (1 <<< (4 * nBands)) - 1 →
        writeShiftedTile blockX blockY nBands hasNoData nodata zoom row col
            nBand xoff yoff xsz ysz srcBand ov =
          ({ ov with recs := ov.recs.map fun q =>
              if q.id = r.id then
                { r with zoom := -1 - zoom, flags := 0, age := -1 }
              else q },
           ShiftedOutcome.completed
             (some { r with zoom := -1 - zoom, flags := 0, age := -1 })
             ((List.range nBands).map fun i =>
               if i + 1 = nBand then
                 mergeRect blockX
                   (if r.flags &&& (((1 <<< 4) - 1) <<< (4 * (nBand - 1))) = 0
                    then emptyBandFill blockX blockY hasNoData nodata
                    else (r.bands.getD (nBand - 1) none).getD
                      (emptyBandFill blockX blockY hasNoData nodata))
                   srcBand xoff yoff xsz ysz
               else (r.bands.getD i none).getD
                 (emptyBandFill blockX blockY hasNoData nodata)),
           ceNone))
      ∧ ((quadrantFlag blockX blockY xoff yoff xsz ysz <<< (4 * (nBand - 1)))
          ||| r.flags ≠ (1 <<< (4 * nBands)) - 1 →
        writeShiftedTile blockX blockY nBands hasNoData nodata zoom row col
            nBand xoff yoff xsz ysz srcBand ov =
          ({ recs := ov.recs.map fun q =>
              if q.id = r.id then
                { id := r.id, zoom := zoom, row := row, col := col,
                  bands := r.bands.set (nBand - 1) (some
                    (mergeRect blockX
                      (if r.flags &&& (((1 <<< 4) - 1) <<< (4 * (nBand - 1))) = 0
                       then emptyBandFill blockX blockY hasNoData nodata
                       else (r.bands.getD (nBand - 1) none).getD
                         (emptyBandFill blockX blockY hasNoData nodata))
                      srcBand xoff yoff xsz ysz)),
                  flags := (quadrantFlag blockX blockY xoff yoff xsz ysz <<<
                    (4 * (nBand - 1))) ||| r.flags,
                  age := ov.counterAge }
              else q,
             nextId := ov.nextId, counterAge := ov.counterAge + 1 },
           ShiftedOutcome.persisted
             { id := r.id, zoom := zoom, row := row, col := col,
               bands := r.bands.set (nBand - 1) (some
                 (mergeRect blockX
                   (if r.flags &&& (((1 <<< 4) - 1) <<< (4 * (nBand - 1))) = 0
                    then emptyBandFill blockX blockY hasNoData nodata
                    else (r.bands.getD (nBand - 1) none).getD
                      (emptyBandFill blockX blockY hasNoData nodata))
                   srcBand xoff yoff xsz ysz)),
               flags := (quadrantFlag blockX blockY xoff yoff xsz ysz <<<
                 (4 * (nBand - 1))) ||| r.flags,
               age := ov.counterAge },
           ceNone)) := by
  intro blockX blockY nBands hasNoData nodata zoom row col nBand xoff yoff
    xsz ysz srcBand ov r hfound
  constructor
  · intro hFull
    unfold writeShiftedTile
    simp only [hfound, Option.map_some', Option.getD_some]
    rw [if_pos hFull]
  · intro hNe
    unfold writeShiftedTile
    simp only [hfound, Option.map_some', Option.getD_some]
    rw [if_neg hNe]

/-- Witness for `claim_shifted_quadrant_write`: a 2×2 single-band tile with
quadrant bits 7 receives its last quadrant (completion: record marked dead
with zoom `-5`, assembled tile `[1, 2, 3, 9]` flushed) and, alternatively,
an already-covered quadrant (persistence: blob updated, age stamped 5,
counter bumped to 6). -/
theorem claim_shifted_quadrant_write_witness :
    writeShiftedTile 2 2 1 false 0 4 0 0 1 1 1 1 1 [0, 0, 0, 9]
        ⟨[⟨1, 4, 0, 0, [some [1, 2, 3, 0], none, none, none], 7, 0⟩], 2, 5⟩ =
      (⟨[⟨1, -5, 0, 0, [some [1, 2, 3, 0], none, none, none], 0, -1⟩], 2, 5⟩,
       ShiftedOutcome.completed
         (some ⟨1, -5, 0, 0, [some [1, 2, 3, 0], none, none, none], 0, -1⟩)
         [[1, 2, 3, 9]], ceNone) ∧
    writeShiftedTile 2 2 1 false 0 4 0 0 1 0 0 1 1 [0, 0, 0, 9]
        ⟨[⟨1, 4, 0, 0, [some [1, 2, 3, 0], none, none, none], 7, 0⟩], 2, 5⟩ =
      (⟨[⟨1, 4, 0, 0, [some [0, 2, 3, 0], none, none, none], 7, 5⟩], 2, 6⟩,
       ShiftedOutcome.persisted
         ⟨1, 4, 0, 0, [some [0, 2, 3, 0], none, none, none], 7, 5⟩,
       ceNone) := by
  constructor
  · exact ((claim_shifted_quadrant_write 2 2 1 false 0 4 0 0 1 1 1 1 1
      [0, 0, 0, 9] ⟨[⟨1, 4, 0, 0, [some [1, 2, 3, 0], none, none, none], 7, 0⟩],
        2, 5⟩ ⟨1, 4, 0, 0, [some [1, 2, 3, 0], none, none, none], 7, 0⟩
      (by decide)).1 (by decide)).trans (by decide)
  · exact ((claim_shifted_quadrant_write 2 2 1 false 0 4 0 0 1 0 0 1 1
      [0, 0, 0, 9] ⟨[⟨1, 4, 0, 0, [some [1, 2, 3, 0], none, none, none], 7, 0⟩],
        2, 5⟩ ⟨1, 4, 0, 0, [some [1, 2, 3, 0], none, none, none], 7, 0⟩
      (by decide)).2 (by decide)).trans (by decide)

theorem evictGo_notDirty (hd : PartialRec → Bool) (half : Nat) :
    ∀ (l : List PartialRec) (cnt : Nat) (x : PartialRec),
      x ∈ (evictGo hd half cnt l).1 → hd x = false := by
  intro l
  induction l with
  | nil => intro cnt x hx; simp [evictGo] at hx
  | cons r rest ih =>
    intro cnt x hx
    simp only [evictGo] at hx
    by_cases hdr : hd r = true
    · rw [if_pos hdr] at hx
      exact ih cnt x hx
    · rw [if_neg hdr] at hx
      by_cases hbr : half ≤ cnt + 1
      · rw [if_pos hbr] at hx
        simp at hx
      · rw [if_neg hbr] at hx
        simp only [List.mem_cons] at hx
        rcases hx with rfl | hx
        · exact Bool.eq_false_iff.mpr hdr
        · exact ih (cnt + 1) x hx

theorem evictGo_sublist (hd : PartialRec → Bool) (half : Nat) :
    ∀ (l : List PartialRec) (cnt : Nat),
      List.Sublist (evictGo hd half cnt l).1 l := by
  intro l
  induction l with
  | nil => intro cnt; simp [evictGo]
  | cons r rest ih =>
    intro cnt
    simp only [evictGo]
    by_cases hdr : hd r = true
    · rw [if_pos hdr]
      exact List.Sublist.cons r (ih cnt)
    · rw [if_neg hdr]
      by_cases hbr : half ≤ cnt + 1
      · rw [if_pos hbr]
        exact List.nil_sublist _
      · rw [if_neg hbr]
        exact List.Sublist.cons₂ r (ih (cnt + 1))

theorem evictGo_partition (hd : PartialRec → Bool) (half : Nat) :
    ∀ (l : List PartialRec) (cnt : Nat) (x : PartialRec), x ∈ l →
      x ∈ (evictGo hd half cnt l).1 ∨ x ∈ (evictGo hd half cnt l).2 := by
  intro l
  induction l with
  | nil => intro cnt x hx; simp at hx
  | cons r rest ih =>
    intro cnt x hx
    simp only [evictGo]
    by_cases hdr : hd r = true
    · rw [if_pos hdr]
      rcases List.mem_cons.mp hx with rfl | hx
      · exact Or.inr (List.mem_cons_self _ _)
      · rcases ih cnt x hx with h | h
        · exact Or.inl h
        · exact Or.inr (List.mem_cons_of_mem _ h)
    · rw [if_neg hdr]
      by_cases hbr : half ≤ cnt + 1
      · rw [if_pos hbr]
        exact Or.inr hx
      · rw [if_neg hbr]
        rcases List.mem_cons.mp hx with rfl | hx
        · exact Or.inl (List.mem_cons_self _ _)
        · rcases ih (cnt + 1) x hx with h | h
          · exact Or.inl (List.mem_cons_of_mem _ h)
          · exact Or.inr h

theorem evictGo_length (hd : PartialRec → Bool) (half : Nat) :
    ∀ (l : List PartialRec) (cnt : Nat),
      (evictGo hd half cnt l).1.length + cnt ≤ max cnt (half - 1) := by
  intro l
  induction l with
  | nil => intro cnt; simp [evictGo]
  | cons r rest ih =>
    intro cnt
    simp only [evictGo]
    by_cases hdr : hd r = true
    · rw [if_pos hdr]
      exact ih cnt
    · rw [if_neg hdr]
      by_cases hbr : half ≤ cnt + 1
      · rw [if_pos hbr]
        simp
      · rw [if_neg hbr]
        have := ih (cnt + 1)
        simp only [List.length_cons]
        omega

/-- Claim C6: during a disk-pressure partial eviction, (a) a record whose
tile has a dirty block in the host block cache is never force-flushed,
(b) at most half of the initially active records are flushed, (c) every
previously active record is either flushed to the primary store or still
present in the overflow table, and (d) flushed records are processed in
ascending `age` order. -/
theorem claim_partial_eviction_safety :
    ∀ (hostDirty : PartialRec → Bool) (recs : List PartialRec),
      (∀ x ∈ (evictPartialTiles hostDirty recs).1, hostDirty x = false)
      ∧ (evictPartialTiles hostDirty recs).1.length ≤
          (recs.filter fun r => r.flags != 0).length / 2
      ∧ (∀ x ∈ recs, x.flags ≠ 0 →
          x ∈ (evictPartialTiles hostDirty recs).1 ∨
          x ∈ (evictPartialTiles hostDirty recs).2)
      ∧ List.Pairwise recAgeLE (evictPartialTiles hostDirty recs).1 := by
  intro hostDirty recs
  refine ⟨?_, ?_, ?_, ?_⟩
  · intro x hx
    exact evictGo_notDirty hostDirty _ _ 0 x hx
  · have := evictGo_length hostDirty
      ((recs.filter fun r => r.flags != 0).length / 2)
      (List.insertionSort recAgeLE (recs.filter fun r => r.flags != 0)) 0
    simp only [evictPartialTiles]
    omega
  · intro x hx hflags
    have hmem : x ∈ recs.filter fun r => r.flags != 0 :=
      List.mem_filter.mpr ⟨hx, by simpa using hflags⟩
    have hmem2 : x ∈ List.insertionSort recAgeLE
        (recs.filter fun r => r.flags != 0) :=
      (List.mem_insertionSort recAgeLE).mpr hmem
    exact evictGo_partition hostDirty _ _ 0 x hmem2
  · have hsorted : List.Pairwise recAgeLE (List.insertionSort recAgeLE
        (recs.filter fun r => r.flags != 0)) :=
      List.sorted_insertionSort recAgeLE _
    exact List.Pairwise.sublist (evictGo_sublist hostDirty _ _ 0) hsorted

/-- Witness for `claim_partial_eviction_safety` at a concrete overflow
table: of four active records (ages 3, 1, 2, 4; the age-1 record dirty in
the host cache), the eviction flushes only the age-2 record — the dirty
record is skipped, one record (half of 4 is 2, stop before the second
flush) remains, and all four stay accounted for. -/
theorem claim_partial_eviction_safety_witness :
    (∀ x ∈ (evictPartialTiles (fun r => r.age == 1)
        [⟨1, 0, 0, 0, [], 1, 3⟩, ⟨2, 0, 1, 0, [], 1, 1⟩,
         ⟨3, 0, 2, 0, [], 1, 2⟩, ⟨4, 0, 3, 0, [], 1, 4⟩]).1,
      (fun (r : PartialRec) => r.age == 1) x = false)
    ∧ (evictPartialTiles (fun r => r.age == 1)
        [⟨1, 0, 0, 0, [], 1, 3⟩, ⟨2, 0, 1, 0, [], 1, 1⟩,
         ⟨3, 0, 2, 0, [], 1, 2⟩, ⟨4, 0, 3, 0, [], 1, 4⟩]).1.length ≤ 2
    ∧ (⟨2, 0, 1, 0, [], 1, 1⟩ ∈ (evictPartialTiles (fun r => r.age == 1)
        [⟨1, 0, 0, 0, [], 1, 3⟩, ⟨2, 0, 1, 0, [], 1, 1⟩,
         ⟨3, 0, 2, 0, [], 1, 2⟩, ⟨4, 0, 3, 0, [], 1, 4⟩]).1 ∨
       ⟨2, 0, 1, 0, [], 1, 1⟩ ∈ (evictPartialTiles (fun r => r.age == 1)
        [⟨1, 0, 0, 0, [], 1, 3⟩, ⟨2, 0, 1, 0, [], 1, 1⟩,
         ⟨3, 0, 2, 0, [], 1, 2⟩, ⟨4, 0, 3, 0, [], 1, 4⟩]).2) := by
  refine ⟨?_, ?_, ?_⟩
  · exact (claim_partial_eviction_safety (fun r => r.age == 1) _).1
  · have h := (claim_partial_eviction_safety (fun r => r.age == 1)
      [⟨1, 0, 0, 0, [], 1, 3⟩, ⟨2, 0, 1, 0, [], 1, 1⟩,
       ⟨3, 0, 2, 0, [], 1, 2⟩, ⟨4, 0, 3, 0, [], 1, 4⟩]).2.1
    exact le_trans h (by decide)
  · exact (claim_partial_eviction_safety (fun r => r.age == 1) _).2.2.1
      ⟨2, 0, 1, 0, [], 1, 1⟩ (by decide) (by decide)
